import Mathlib

/-!
Verification of the sarcasm-detection model and training loop in `src/main.py`
(class `SarcasmDetector` and function `train_epoch`).

Shallow embedding conventions:
* real tensors become functions `Fin n → ℝ` (`Vec n`) and `List`s of them;
  the float arithmetic of the source is modelled by exact real arithmetic;
* the pretrained BERT encoder is an external collaborator
  (`transformers.BertModel`); it is kept opaque, as a function argument
  mapping a token-id batch and an attention-mask batch to a batch of
  per-token embedding sequences;
* dropout (`nn.Dropout`, and the inter-layer dropout of `nn.LSTM`) is
  stochastic in training mode; the random keep/drop mask is made an explicit
  argument, and theorems quantify over it;
* autograd is not re-implemented: the gradient produced by `loss.backward()`
  for each trainable parameter is an oracle argument `gradOf`; what is
  embedded faithfully is which parameters receive a gradient at all
  (only those with `requires_grad = True`) and what `optimizer.step()`
  (`torch.optim.AdamW`, the optimizer built in `__main__`) does with it;
* Python exceptions become `Except PyErr`.
-/

noncomputable section

/-- A real vector of dimension `n` (one row / channel slice of a tensor). -/
abbrev Vec (n : ℕ) := Fin n → ℝ

/-- Scalar rectified-linear unit, `torch.nn.ReLU` pointwise. -/
def relu (x : ℝ) : ℝ := max x 0

/-- Vector ReLU (`self.relu` in the source, applied componentwise). -/
def reluV {n : ℕ} (v : Vec n) : Vec n := fun j => relu (v j)

/-- Logistic sigmoid, used by the LSTM gates. -/
def sigmoid (x : ℝ) : ℝ := 1 / (1 + Real.exp (-x))

/-- `nn.Softmax(dim=1)` on one row: normalized exponential. -/
def softmax {n : ℕ} (v : Vec n) : Vec n :=
  fun j => Real.exp (v j) / ∑ k, Real.exp (v k)

/-- An affine (dense) layer `nn.Linear`: `y j = (W x) j + b j`. -/
def linear {m n : ℕ} (W : Fin m → Fin n → ℝ) (b : Vec m) (x : Vec n) : Vec m :=
  fun j => (∑ c, W j c * x c) + b j

/-- `nn.Dropout(p)` applied to one vector.  In training mode PyTorch zeroes
each coordinate whose Bernoulli keep-mask is false and rescales the survivors
by `1/(1-p)` (inverted dropout); in eval mode it is the identity.  The random
mask is an explicit argument. -/
def dropoutApply {n : ℕ} (training : Bool) (p : ℝ) (mask : Fin n → Bool)
    (x : Vec n) : Vec n :=
  if training then (fun j => if mask j then x j / (1 - p) else 0) else x

/-- Zero-padded access into a sequence of vectors: `conv1d` with `padding=1`
reads position `i ∈ ℤ`, where out-of-range positions contribute `0`. -/
def padGet {n : ℕ} (xs : List (Vec n)) (i : ℤ) : Vec n :=
  if h : 0 ≤ i ∧ i < xs.length then
    xs.get ⟨i.toNat, by omega⟩
  else fun _ => 0

/-- The value of `self.conv1d` (in 768 channels, out 256 channels,
`kernel_size=3`, `padding=1`) at output position `t`, followed by ReLU
(`self.relu(self.conv1d(cnn_in))`, lines 56-57).  PyTorch `Conv1d` computes
the cross-correlation `b o + Σ_c Σ_k W o c k * x[c][t + k - padding]`. -/
def convReluAt (W : Fin 256 → Fin 768 → Fin 3 → ℝ) (b : Vec 256)
    (xs : List (Vec 768)) (t : ℕ) : Vec 256 :=
  fun o => relu ((∑ c, ∑ k : Fin 3, W o c k * padGet xs ((t : ℤ) + (k : ℕ) - 1) c) + b o)

/-- The convolution stage of the forward pass: ReLU-ed `conv1d` over the whole
embedding sequence.  One output vector per input position. -/
def convRelu (W : Fin 256 → Fin 768 → Fin 3 → ℝ) (b : Vec 256)
    (xs : List (Vec 768)) : List (Vec 256) :=
  (List.range xs.length).map (convReluAt W b xs)

/-! ### Basic facts about softmax rows and the convolution stage -/

lemma sum_exp_pos {n : ℕ} [NeZero n] (v : Vec n) :
    0 < ∑ k, Real.exp (v k) :=
  Finset.sum_pos (fun i _ => Real.exp_pos (v i)) Finset.univ_nonempty

lemma softmax_row_sum {n : ℕ} [NeZero n] (v : Vec n) :
    (∑ j, softmax v j) = 1 := by
  have h := sum_exp_pos v
  simp only [softmax]
  rw [← Finset.sum_div, div_self h.ne']

lemma softmax_nonneg {n : ℕ} [NeZero n] (v : Vec n) (j : Fin n) :
    0 ≤ softmax v j :=
  div_nonneg (Real.exp_pos (v j)).le (sum_exp_pos v).le

lemma softmax_le_one {n : ℕ} [NeZero n] (v : Vec n) (j : Fin n) :
    softmax v j ≤ 1 := by
  have h := sum_exp_pos v
  refine (div_le_one h).mpr ?_
  exact Finset.single_le_sum (fun i _ => (Real.exp_pos (v i)).le) (Finset.mem_univ j)

lemma convRelu_length (W : Fin 256 → Fin 768 → Fin 3 → ℝ) (b : Vec 256)
    (xs : List (Vec 768)) : (convRelu W b xs).length = xs.length := by
  simp [convRelu]

/-! ### The bidirectional LSTM (`self.lstm`, `nn.LSTM(256, 128, num_layers=2,
bidirectional=True, batch_first=True, dropout=dropout_rate)`) -/

/-- The four weight slices of one LSTM gate: input weights, recurrent weights
and the two PyTorch bias vectors (`weight_ih`, `weight_hh`, `bias_ih`,
`bias_hh` restricted to that gate's rows). -/
structure GateW (d h : ℕ) where
  wi : Fin h → Fin d → ℝ
  wh : Fin h → Fin h → ℝ
  bi : Vec h
  bh : Vec h

/-- Pre-activation of one gate: `W_i x + b_i + W_h hPrev + b_h`. -/
def gatePre {d h : ℕ} (g : GateW d h) (hPrev : Vec h) (x : Vec d) : Vec h :=
  fun j => (∑ c, g.wi j c * x c) + g.bi j + (∑ c, g.wh j c * hPrev c) + g.bh j

/-- Weights of one directional LSTM layer: input, forget, cell and output
gates (PyTorch packs them as the four row-blocks of `weight_ih_l{k}` /
`weight_hh_l{k}`). -/
structure LSTMw (d h : ℕ) where
  gi : GateW d h
  gf : GateW d h
  gg : GateW d h
  go : GateW d h

/-- One LSTM cell step on state `(hPrev, cPrev)` and input `x`:
`i = σ(..)`, `f = σ(..)`, `g = tanh(..)`, `o = σ(..)`,
`c = f∘cPrev + i∘g`, `h = o ∘ tanh c`. -/
def lstmCell {d h : ℕ} (w : LSTMw d h) (s : Vec h × Vec h) (x : Vec d) :
    Vec h × Vec h :=
  let i := fun j => sigmoid (gatePre w.gi s.1 x j)
  let f := fun j => sigmoid (gatePre w.gf s.1 x j)
  let g := fun j => Real.tanh (gatePre w.gg s.1 x j)
  let o := fun j => sigmoid (gatePre w.go s.1 x j)
  let c := fun j => f j * s.2 j + i j * g j
  (fun j => o j * Real.tanh (c j), c)

/-- PyTorch's default initial state: `h_0 = c_0 = 0`. -/
def lstmZeroState {h : ℕ} : Vec h × Vec h := (fun _ => 0, fun _ => 0)

/-- The per-position hidden states of one directional pass, in processing
order: element `t` is the hidden state after consuming `xs[0..t]`. -/
def lstmStates {d h : ℕ} (w : LSTMw d h) :
    Vec h × Vec h → List (Vec d) → List (Vec h)
  | _, [] => []
  | s, x :: xs =>
    let s2 := lstmCell w s x
    s2.1 :: lstmStates w s2 xs

/-- The final `(h, c)` state of one directional pass (what PyTorch would
report in `h_n`/`c_n` for that direction). -/
def lstmFinalState {d h : ℕ} (w : LSTMw d h) (s : Vec h × Vec h)
    (xs : List (Vec d)) : Vec h × Vec h :=
  xs.foldl (lstmCell w) s

/-- One bidirectional layer, `batch_first` output layout for one example:
output position `t` is the concatenation of the forward direction's state at
`t` with the backward direction's state at `t` (the backward direction
processes the reversed sequence, and its states are listed back in original
positional order). -/
def biLSTMLayer {d h : ℕ} (wf wb : LSTMw d h) (xs : List (Vec d)) :
    List (Vec (h + h)) :=
  List.zipWith Fin.append
    (lstmStates wf lstmZeroState xs)
    ((lstmStates wb lstmZeroState xs.reverse).reverse)

lemma lstmStates_length {d h : ℕ} (w : LSTMw d h) :
    ∀ (xs : List (Vec d)) (s : Vec h × Vec h),
      (lstmStates w s xs).length = xs.length := by
  intro xs
  induction xs with
  | nil => intro s; rfl
  | cons x xs ih => intro s; simp [lstmStates, ih]

lemma biLSTMLayer_length {d h : ℕ} (wf wb : LSTMw d h) (xs : List (Vec d)) :
    (biLSTMLayer wf wb xs).length = xs.length := by
  simp [biLSTMLayer, lstmStates_length]

/-- The last entry of the state list of a directional pass is the first
component of the fold that computes the final `(h, c)` state. -/
lemma lstmStates_getLastD {d h : ℕ} (w : LSTMw d h) :
    ∀ (xs : List (Vec d)) (s : Vec h × Vec h) (dflt : Vec h), xs ≠ [] →
      (lstmStates w s xs).getLastD dflt = (lstmFinalState w s xs).1 := by
  intro xs
  induction xs with
  | nil => intro s dflt hne; exact absurd rfl hne
  | cons x xs ih =>
    intro s dflt _
    cases xs with
    | nil => simp [lstmStates, lstmFinalState]
    | cons y ys =>
      have h2 : (y :: ys : List (Vec d)) ≠ [] := by simp
      have hunf : lstmStates w s (x :: y :: ys)
          = (lstmCell w s x).1 :: lstmStates w (lstmCell w s x) (y :: ys) := rfl
      have hf : lstmFinalState w s (x :: y :: ys)
          = lstmFinalState w (lstmCell w s x) (y :: ys) := rfl
      rw [hunf, List.getLastD_cons, hf]
      exact ih (lstmCell w s x) (lstmCell w s x).1 h2

lemma lstmStates_head? {d h : ℕ} (w : LSTMw d h) (s : Vec h × Vec h)
    (x : Vec d) (xs : List (Vec d)) :
    (lstmStates w s (x :: xs)).head? = some (lstmCell w s x).1 := rfl

/-- Last element of a `zipWith` of two equally long non-empty lists. -/
lemma zipWith_getLastD {α β γ : Type} (f : α → β → γ) :
    ∀ (as : List α) (bs : List β) (da : α) (db : β) (dc : γ),
      as.length = bs.length → as ≠ [] →
      (List.zipWith f as bs).getLastD dc = f (as.getLastD da) (bs.getLastD db) := by
  intro as
  induction as with
  | nil => intro bs da db dc _ hne; exact absurd rfl hne
  | cons a as ih =>
    intro bs da db dc hlen hne
    cases bs with
    | nil => simp at hlen
    | cons b bs =>
      cases as with
      | nil =>
        cases bs with
        | nil => simp
        | cons b2 bs2 => simp at hlen
      | cons a2 as2 =>
        cases bs with
        | nil => simp at hlen
        | cons b2 bs2 =>
          have hlen2 : (a2 :: as2).length = (b2 :: bs2).length := by
            simpa using hlen
          rw [List.zipWith_cons_cons, List.getLastD_cons dc (f a b),
            List.getLastD_cons da a, List.getLastD_cons db b]
          exact ih (b2 :: bs2) a b (f a b) hlen2 (by simp)

/-- The last entry of a bidirectional layer's output (`lstm_out[:, -1, :]` for
one example): the forward half is that direction's final hidden state over the
whole sequence, and the backward half is the backward direction's state at the
last position, i.e. the state after its pass has consumed just the last
element of `xs`. -/
lemma biLSTMLayer_getLastD {d h : ℕ} (wf wb : LSTMw d h) (xs : List (Vec d))
    (dflt : Vec (h + h)) (hne : xs ≠ []) :
    (biLSTMLayer wf wb xs).getLastD dflt =
      Fin.append (lstmFinalState wf lstmZeroState xs).1
        (lstmCell wb lstmZeroState (xs.getLastD (fun _ => 0))).1 := by
  have hrevne : xs.reverse ≠ [] := by
    simpa using hne
  obtain ⟨y, t, hyt⟩ : ∃ y t, xs.reverse = y :: t := by
    cases hx : xs.reverse with
    | nil => exact absurd hx hrevne
    | cons y t => exact ⟨y, t, rfl⟩
  have hylast : xs.getLastD (fun _ => 0) = y := by
    have h1 : xs.getLast? = some y := by
      rw [← List.head?_reverse, hyt]; rfl
    rw [List.getLastD_eq_getLast?, h1]; rfl
  have hlen : (lstmStates wf lstmZeroState xs).length
      = ((lstmStates wb lstmZeroState xs.reverse).reverse).length := by
    simp [lstmStates_length]
  have hfwdne : lstmStates wf lstmZeroState xs ≠ [] := by
    intro hnil
    have := lstmStates_length wf xs lstmZeroState
    rw [hnil] at this
    exact hne (List.length_eq_zero.mp this.symm)
  rw [biLSTMLayer,
    zipWith_getLastD Fin.append (lstmStates wf lstmZeroState xs)
      ((lstmStates wb lstmZeroState xs.reverse).reverse)
      (fun _ => 0) (fun _ => 0) dflt hlen hfwdne,
    lstmStates_getLastD wf xs lstmZeroState (fun _ => 0) hne]
  have hbwd : ((lstmStates wb lstmZeroState xs.reverse).reverse).getLastD
      (fun _ => 0) = (lstmCell wb lstmZeroState y).1 := by
    rw [List.getLastD_eq_getLast?, List.getLast?_reverse, hyt,
      lstmStates_head? wb lstmZeroState y t]
    rfl
  rw [hbwd, hylast]

/-! ### The full model (`SarcasmDetector`) -/

/-- All learnable non-encoder weights of `SarcasmDetector`: the `conv1d`
filter bank and bias, the four directional LSTM layers (two stacked
bidirectional layers), and the two dense layers.  The architecture constants
of `__init__` are baked into the types: `bert_dim = 768`,
`cnn_out_channels = 256`, `lstm_hidden_size = 128`, `dense_hidden_size = 64`,
output classes `2`. -/
structure Weights where
  convW : Fin 256 → Fin 768 → Fin 3 → ℝ
  convB : Vec 256
  l1f : LSTMw 256 128
  l1b : LSTMw 256 128
  l2f : LSTMw (128 + 128) 128
  l2b : LSTMw (128 + 128) 128
  d1W : Fin 64 → Fin (128 + 128) → ℝ
  d1B : Vec 64
  d2W : Fin 2 → Fin 64 → ℝ
  d2B : Vec 2

/-- Inter-layer dropout of `nn.LSTM`: applied (in training mode) to every
time step of the first layer's output before it feeds the second layer.
`mdrop t` is the random keep-mask for time step `t`. -/
def dropoutSeq {n : ℕ} (training : Bool) (p : ℝ) (mdrop : ℕ → Fin n → Bool) :
    ℕ → List (Vec n) → List (Vec n)
  | _, [] => []
  | t, v :: vs =>
    dropoutApply training p (mdrop t) v :: dropoutSeq training p mdrop (t + 1) vs

lemma dropoutSeq_length {n : ℕ} (training : Bool) (p : ℝ)
    (mdrop : ℕ → Fin n → Bool) :
    ∀ (t : ℕ) (vs : List (Vec n)),
      (dropoutSeq training p mdrop t vs).length = vs.length := by
  intro t vs
  induction vs generalizing t with
  | nil => rfl
  | cons v vs ih => simp [dropoutSeq, ih]

/-- The input of the second stacked bidirectional LSTM layer for one example:
BERT embeddings `es` through `conv1d`+ReLU, through the first bidirectional
layer, then through the LSTM's inter-layer dropout. -/
def lstmLayer2Input (w : Weights) (training : Bool) (p : ℝ)
    (mdrop : ℕ → Fin (128 + 128) → Bool) (es : List (Vec 768)) :
    List (Vec (128 + 128)) :=
  dropoutSeq training p mdrop 0
    (biLSTMLayer w.l1f w.l1b (convRelu w.convW w.convB es))

/-- `lstm_out` for one example: the second bidirectional layer's output
sequence (line 61). -/
def lstmOut (w : Weights) (training : Bool) (p : ℝ)
    (mdrop : ℕ → Fin (128 + 128) → Bool) (es : List (Vec 768)) :
    List (Vec (128 + 128)) :=
  biLSTMLayer w.l2f w.l2b (lstmLayer2Input w training p mdrop es)

/-- `final_hidden = lstm_out[:, -1, :]` for one example (line 62): the
aggregated state handed to the classifier head.  Indexing `-1` requires a
non-empty sequence in the source; the embedding totalizes it with a zero
default, and every theorem about it assumes the sequence is non-empty. -/
def aggregatedState (w : Weights) (training : Bool) (p : ℝ)
    (mdrop : ℕ → Fin (128 + 128) → Bool) (es : List (Vec 768)) :
    Vec (128 + 128) :=
  (lstmOut w training p mdrop es).getLastD (fun _ => 0)

/-- The raw class scores (`logits`, line 68) for one example: dense1, ReLU,
dropout, dense2 applied to the aggregated state. -/
def sarcasmLogits (w : Weights) (training : Bool) (p : ℝ)
    (mdrop : ℕ → Fin (128 + 128) → Bool) (ddrop : Fin 64 → Bool)
    (es : List (Vec 768)) : Vec 2 :=
  linear w.d2W w.d2B
    (dropoutApply training p ddrop
      (reluV (linear w.d1W w.d1B (aggregatedState w training p mdrop es))))

/-- `predictions` (line 69) for one example: softmax of the raw scores. -/
def forwardOne (w : Weights) (training : Bool) (p : ℝ)
    (mdrop : ℕ → Fin (128 + 128) → Bool) (ddrop : Fin 64 → Bool)
    (es : List (Vec 768)) : Vec 2 :=
  softmax (sarcasmLogits w training p mdrop ddrop es)

/-- The batched forward pass over the per-example BERT embedding sequences;
example `i` gets its own dropout masks `mdrop i` / `ddrop i`. -/
def forwardBatch (w : Weights) (training : Bool) (p : ℝ)
    (mdrop : ℕ → ℕ → Fin (128 + 128) → Bool) (ddrop : ℕ → Fin 64 → Bool) :
    ℕ → List (List (Vec 768)) → List (Vec 2)
  | _, [] => []
  | i, es :: rest =>
    forwardOne w training p (mdrop i) (ddrop i) es ::
      forwardBatch w training p mdrop ddrop (i + 1) rest

/-- The per-example raw-score (pre-softmax) batch, used to state that the
criterion consumes softmax-normalized probabilities and not these scores. -/
def logitsBatch (w : Weights) (training : Bool) (p : ℝ)
    (mdrop : ℕ → ℕ → Fin (128 + 128) → Bool) (ddrop : ℕ → Fin 64 → Bool) :
    ℕ → List (List (Vec 768)) → List (Vec 2)
  | _, [] => []
  | i, es :: rest =>
    sarcasmLogits w training p (mdrop i) (ddrop i) es ::
      logitsBatch w training p mdrop ddrop (i + 1) rest

/-- `SarcasmDetector.forward` on a batch (lines 49-71): run the opaque `bert`
collaborator on the token ids and attention mask (inside `torch.no_grad()`),
then the conv / BiLSTM / dense / softmax pipeline on each embedding
sequence. -/
def sarcasmDetectorForward (w : Weights) (training : Bool) (p : ℝ)
    (mdrop : ℕ → ℕ → Fin (128 + 128) → Bool) (ddrop : ℕ → Fin 64 → Bool)
    (bert : List (List ℤ) → List (List ℤ) → List (List (Vec 768)))
    (input_ids attention_mask : List (List ℤ)) : List (Vec 2) :=
  forwardBatch w training p mdrop ddrop 0 (bert input_ids attention_mask)

lemma forwardBatch_length (w : Weights) (training : Bool) (p : ℝ)
    (mdrop : ℕ → ℕ → Fin (128 + 128) → Bool) (ddrop : ℕ → Fin 64 → Bool) :
    ∀ (i : ℕ) (l : List (List (Vec 768))),
      (forwardBatch w training p mdrop ddrop i l).length = l.length := by
  intro i l
  induction l generalizing i with
  | nil => rfl
  | cons es rest ih => simp [forwardBatch, ih]

lemma forwardBatch_mem (w : Weights) (training : Bool) (p : ℝ)
    (mdrop : ℕ → ℕ → Fin (128 + 128) → Bool) (ddrop : ℕ → Fin 64 → Bool) :
    ∀ (i : ℕ) (l : List (List (Vec 768))) (row : Vec 2),
      row ∈ forwardBatch w training p mdrop ddrop i l →
      ∃ j es, row = forwardOne w training p (mdrop j) (ddrop j) es := by
  intro i l
  induction l generalizing i with
  | nil => intro row hrow; simp [forwardBatch] at hrow
  | cons es rest ih =>
    intro row hrow
    rw [forwardBatch, List.mem_cons] at hrow
    cases hrow with
    | inl h => exact ⟨i, es, h⟩
    | inr h => exact ih (i + 1) row h

lemma logitsBatch_map_softmax (w : Weights) (training : Bool) (p : ℝ)
    (mdrop : ℕ → ℕ → Fin (128 + 128) → Bool) (ddrop : ℕ → Fin 64 → Bool) :
    ∀ (i : ℕ) (l : List (List (Vec 768))),
      forwardBatch w training p mdrop ddrop i l
        = (logitsBatch w training p mdrop ddrop i l).map softmax := by
  intro i l
  induction l generalizing i with
  | nil => rfl
  | cons es rest ih =>
    simp only [forwardBatch, logitsBatch, List.map_cons, forwardOne]
    exact congrArg _ (ih (i + 1))

/-! ### The loss criterion (`nn.CrossEntropyLoss`, built in `__main__`) -/

/-- One sample's cross-entropy term on an input row `z` and target class `y`:
`-log softmax(z)[y] = log (Σ_j exp z_j) - z_y`.  (`nn.CrossEntropyLoss`
applies its own log-softmax to whatever it is given; in this program it is
given the model's already-softmaxed probabilities.) -/
def ceTerm (z : Vec 2) (y : Fin 2) : ℝ :=
  Real.log (∑ j, Real.exp (z j)) - z y

/-- `nn.CrossEntropyLoss` with its default mean reduction over the batch.
Predictions and targets are paired positionally. -/
def crossEntropyLoss (preds : List (Vec 2)) (labels : List (Fin 2)) : ℝ :=
  (List.zipWith ceTerm preds labels).sum /
    (List.zipWith ceTerm preds labels).length

lemma ceTerm_nonneg (z : Vec 2) (y : Fin 2) : 0 ≤ ceTerm z y := by
  have hle : Real.exp (z y) ≤ ∑ j, Real.exp (z j) :=
    Finset.single_le_sum (fun i _ => (Real.exp_pos (z i)).le) (Finset.mem_univ y)
  have hlog : z y ≤ Real.log (∑ j, Real.exp (z j)) := by
    calc z y = Real.log (Real.exp (z y)) := (Real.log_exp (z y)).symm
    _ ≤ Real.log (∑ j, Real.exp (z j)) :=
        Real.log_le_log (Real.exp_pos (z y)) hle
  simpa [ceTerm] using sub_nonneg.mpr hlog

lemma zipWith_ceTerm_sum_nonneg :
    ∀ (preds : List (Vec 2)) (labels : List (Fin 2)),
      0 ≤ (List.zipWith ceTerm preds labels).sum := by
  intro preds
  induction preds with
  | nil => intro labels; simp
  | cons z zs ih =>
    intro labels
    cases labels with
    | nil => simp
    | cons y ys =>
      rw [List.zipWith_cons_cons, List.sum_cons]
      exact add_nonneg (ceTerm_nonneg z y) (ih ys)

lemma crossEntropyLoss_nonneg (preds : List (Vec 2)) (labels : List (Fin 2)) :
    0 ≤ crossEntropyLoss preds labels :=
  div_nonneg (zipWith_ceTerm_sum_nonneg preds labels) (Nat.cast_nonneg _)

/-! ### Training-loop semantics (`train_epoch`, lines 73-93)

`train_epoch(model, train_loader, optimizer, criterion, device)` is generic in
its `model` and `criterion` arguments, so the embedding takes them as function
arguments too.  The gradient that `loss.backward()` deposits on trainable
parameter `i` for a given batch is the oracle `gradOf b i` (autograd itself is
not re-implemented); which parameters receive any gradient, and what
`optimizer.zero_grad()` / `AdamW.step()` do, are embedded faithfully. -/

/-- Python exceptions that the embedded code can raise. -/
inductive PyErr
  | zeroDivisionError
  | typeError
  | valueError
  deriving DecidableEq

/-- One labeled batch from the train loader, already moved to the device. -/
structure Batch where
  input_ids : List (List ℤ)
  attention_mask : List (List ℤ)
  labels : List (Fin 2)

/-- One optimizer-managed parameter tensor, scalarized: its value, its
`requires_grad` flag, its `.grad` slot, and its AdamW state
(`exp_avg`, `exp_avg_sq`, `step`). -/
structure Param where
  value : ℝ
  requiresGrad : Bool
  grad : Option ℝ
  expAvg : ℝ
  expAvgSq : ℝ
  stepCount : ℕ

/-- AdamW hyperparameters. -/
structure HP where
  lr : ℝ
  beta1 : ℝ
  beta2 : ℝ
  eps : ℝ
  weightDecay : ℝ

/-- `torch.optim.AdamW(model.parameters(), lr=lr)` as constructed in
`__main__`: default `betas=(0.9, 0.999)`, `eps=1e-8`, `weight_decay=0.01`. -/
def defaultHP (lr : ℝ) : HP :=
  ⟨lr, 9 / 10, 999 / 1000, 1 / 100000000, 1 / 100⟩

/-- One AdamW update of a single parameter.  Parameters whose `.grad` is
`None` are skipped entirely (torch's `step` loop `continue`s on them).
Otherwise, following `torch.optim.adamw`: decoupled weight decay
`p *= 1 - lr*wd`, moment updates, bias corrections with the incremented step
count, and `p -= lr * mHat / (sqrt(v)/sqrt(1 - beta2^t) + eps)`. -/
def adamwParamStep (hp : HP) (q : Param) : Param :=
  match q.grad with
  | none => q
  | some g =>
    let t := q.stepCount + 1
    let m := hp.beta1 * q.expAvg + (1 - hp.beta1) * g
    let v := hp.beta2 * q.expAvgSq + (1 - hp.beta2) * g ^ 2
    let denom := Real.sqrt v / Real.sqrt (1 - hp.beta2 ^ t) + hp.eps
    ⟨q.value * (1 - hp.lr * hp.weightDecay) - hp.lr * (m / (1 - hp.beta1 ^ t)) / denom,
      q.requiresGrad, q.grad, m, v, t⟩

/-- `optimizer.zero_grad()` on one parameter: the gradient slot is cleared
(value, flag and optimizer state untouched). -/
def clearGrad (q : Param) : Param :=
  ⟨q.value, q.requiresGrad, none, q.expAvg, q.expAvgSq, q.stepCount⟩

/-- `loss.backward()`: autograd deposits a gradient on every parameter with
`requires_grad = True` and leaves the others' `.grad` slots as they are
(`None` after `zero_grad`); `g i` is the oracle gradient for parameter `i`. -/
def setGrads (g : ℕ → ℝ) : ℕ → List Param → List Param
  | _, [] => []
  | i, q :: qs =>
    (if q.requiresGrad then
        ⟨q.value, q.requiresGrad, some (g i), q.expAvg, q.expAvgSq, q.stepCount⟩
      else q) :: setGrads g (i + 1) qs

/-- The six operations the body of the batch loop performs, in source order
(lines 83-91). -/
inductive TrainOp
  | zeroGrad
  | forwardPass
  | computeLoss
  | backwardPass
  | optimizerStep
  | accumulateLoss
  deriving DecidableEq

/-- The per-batch program of `train_epoch`, exactly as the loop body orders
it: `optimizer.zero_grad()`; `outputs = model(...)`;
`loss = criterion(outputs, labels)`; `loss.backward()`; `optimizer.step()`;
`total_loss += loss.item()`. -/
def batchProgram : List TrainOp :=
  [.zeroGrad, .forwardPass, .computeLoss, .backwardPass, .optimizerStep,
    .accumulateLoss]

/-- Mutable state across batches: the optimizer-managed parameters and the
running `total_loss`. -/
structure TrainState where
  params : List Param
  totalLoss : ℝ

/-- Transient state inside one loop iteration: the outer state plus the
`outputs` and `loss` locals. -/
structure StepCtx where
  st : TrainState
  outputs : List (Vec 2)
  loss : ℝ

/-- Interpreter for one operation of the batch program. -/
def applyOp (modelFn : List Param → Batch → List (Vec 2))
    (criterion : List (Vec 2) → List (Fin 2) → ℝ)
    (gradOf : Batch → ℕ → ℝ) (hp : HP) (b : Batch) (c : StepCtx) :
    TrainOp → StepCtx
  | .zeroGrad => ⟨⟨c.st.params.map clearGrad, c.st.totalLoss⟩, c.outputs, c.loss⟩
  | .forwardPass => ⟨c.st, modelFn c.st.params b, c.loss⟩
  | .computeLoss => ⟨c.st, c.outputs, criterion c.outputs b.labels⟩
  | .backwardPass =>
    ⟨⟨setGrads (gradOf b) 0 c.st.params, c.st.totalLoss⟩, c.outputs, c.loss⟩
  | .optimizerStep =>
    ⟨⟨c.st.params.map (adamwParamStep hp), c.st.totalLoss⟩, c.outputs, c.loss⟩
  | .accumulateLoss =>
    ⟨⟨c.st.params, c.st.totalLoss + c.loss⟩, c.outputs, c.loss⟩

/-- One iteration of the batch loop: run the per-batch program over the
incoming state (the `outputs`/`loss` locals start unbound; they are assigned
before use by the program itself). -/
def runBatch (modelFn : List Param → Batch → List (Vec 2))
    (criterion : List (Vec 2) → List (Fin 2) → ℝ)
    (gradOf : Batch → ℕ → ℝ) (hp : HP) (st : TrainState) (b : Batch) :
    TrainState :=
  (batchProgram.foldl (applyOp modelFn criterion gradOf hp b) ⟨st, [], 0⟩).st

/-- The state after the whole batch loop of one epoch, starting from
`total_loss = 0` (line 75). -/
def epochState (modelFn : List Param → Batch → List (Vec 2))
    (criterion : List (Vec 2) → List (Fin 2) → ℝ)
    (gradOf : Batch → ℕ → ℝ) (hp : HP) (ps : List Param)
    (batches : List Batch) : TrainState :=
  batches.foldl (runBatch modelFn criterion gradOf hp) ⟨ps, 0⟩

/-- Python's `/` on a float and an int: raises `ZeroDivisionError` when the
divisor is zero. -/
def pyDiv (a : ℝ) (n : ℕ) : Except PyErr ℝ :=
  if n = 0 then .error .zeroDivisionError else .ok (a / n)

/-- `train_epoch` (lines 73-93): `model.train()` (its module-mode effect is
modelled separately by `trainEpochModes`), the batch loop, then
`return total_loss / len(train_loader)`. -/
def trainEpoch (modelFn : List Param → Batch → List (Vec 2))
    (criterion : List (Vec 2) → List (Fin 2) → ℝ)
    (gradOf : Batch → ℕ → ℝ) (hp : HP) (ps : List Param)
    (batches : List Batch) : Except PyErr ℝ :=
  pyDiv (epochState modelFn criterion gradOf hp ps batches).totalLoss
    batches.length

/-- The scalar loss computed for batch `b` from state `st`: the criterion
applied to the model's outputs (the forward pass runs after `zero_grad`,
which only clears gradient slots). -/
def batchLossVal (modelFn : List Param → Batch → List (Vec 2))
    (criterion : List (Vec 2) → List (Fin 2) → ℝ)
    (st : TrainState) (b : Batch) : ℝ :=
  criterion (modelFn (st.params.map clearGrad) b) b.labels

/-- The per-batch loss values of one epoch, in loop order. -/
def epochLosses (modelFn : List Param → Batch → List (Vec 2))
    (criterion : List (Vec 2) → List (Fin 2) → ℝ)
    (gradOf : Batch → ℕ → ℝ) (hp : HP) :
    TrainState → List Batch → List ℝ
  | _, [] => []
  | st, b :: bs =>
    batchLossVal modelFn criterion st b ::
      epochLosses modelFn criterion gradOf hp
        (runBatch modelFn criterion gradOf hp st b) bs

/-- Computed form of one loop iteration: gradients cleared, gradients of the
trainable parameters set, AdamW applied, and the batch loss accumulated. -/
lemma runBatch_eq (modelFn : List Param → Batch → List (Vec 2))
    (criterion : List (Vec 2) → List (Fin 2) → ℝ)
    (gradOf : Batch → ℕ → ℝ) (hp : HP) (st : TrainState) (b : Batch) :
    runBatch modelFn criterion gradOf hp st b =
      ⟨(setGrads (gradOf b) 0 (st.params.map clearGrad)).map (adamwParamStep hp),
        st.totalLoss + batchLossVal modelFn criterion st b⟩ := rfl

lemma setGrads_length (g : ℕ → ℝ) :
    ∀ (k : ℕ) (ps : List Param), (setGrads g k ps).length = ps.length := by
  intro k ps
  induction ps generalizing k with
  | nil => rfl
  | cons q qs ih => simp [setGrads, ih]

lemma runBatch_params_length (modelFn : List Param → Batch → List (Vec 2))
    (criterion : List (Vec 2) → List (Fin 2) → ℝ)
    (gradOf : Batch → ℕ → ℝ) (hp : HP) (st : TrainState) (b : Batch) :
    (runBatch modelFn criterion gradOf hp st b).params.length
      = st.params.length := by
  rw [runBatch_eq]
  simp [setGrads_length]

lemma adamwParamStep_gradNone (hp : HP) (q : Param) (h : q.grad = none) :
    adamwParamStep hp q = q := by
  unfold adamwParamStep
  rw [h]

lemma epochState_totalLoss (modelFn : List Param → Batch → List (Vec 2))
    (criterion : List (Vec 2) → List (Fin 2) → ℝ)
    (gradOf : Batch → ℕ → ℝ) (hp : HP) :
    ∀ (bs : List Batch) (st : TrainState),
      (bs.foldl (runBatch modelFn criterion gradOf hp) st).totalLoss
        = st.totalLoss + (epochLosses modelFn criterion gradOf hp st bs).sum := by
  intro bs
  induction bs with
  | nil => intro st; simp [epochLosses]
  | cons b bs ih =>
    intro st
    rw [List.foldl_cons, ih, epochLosses, List.sum_cons, runBatch_eq]
    ring

lemma epochLosses_length (modelFn : List Param → Batch → List (Vec 2))
    (criterion : List (Vec 2) → List (Fin 2) → ℝ)
    (gradOf : Batch → ℕ → ℝ) (hp : HP) :
    ∀ (bs : List Batch) (st : TrainState),
      (epochLosses modelFn criterion gradOf hp st bs).length = bs.length := by
  intro bs
  induction bs with
  | nil => intro st; rfl
  | cons b bs ih => intro st; simp [epochLosses, ih]

/-- With the criterion of `__main__` (`nn.CrossEntropyLoss`), every per-batch
loss is non-negative. -/
lemma epochLosses_nonneg (modelFn : List Param → Batch → List (Vec 2))
    (gradOf : Batch → ℕ → ℝ) (hp : HP) :
    ∀ (bs : List Batch) (st : TrainState) (x : ℝ),
      x ∈ epochLosses modelFn crossEntropyLoss gradOf hp st bs → 0 ≤ x := by
  intro bs
  induction bs with
  | nil => intro st x hx; simp [epochLosses] at hx
  | cons b bs ih =>
    intro st x hx
    rw [epochLosses, List.mem_cons] at hx
    cases hx with
    | inl h => rw [h]; exact crossEntropyLoss_nonneg _ _
    | inr h => exact ih _ x h

/-- A parameter whose `requires_grad` flag is off passes through a whole loop
iteration untouched except for its cleared gradient slot: `zero_grad` clears
the slot, `backward` deposits nothing, and AdamW skips `None`-grad
parameters. -/
lemma paramsPipeline_frozen (g : ℕ → ℝ) (hp : HP) :
    ∀ (ps : List Param) (k i : ℕ) (q : Param), ps[i]? = some q →
      q.requiresGrad = false →
      ((setGrads g k (ps.map clearGrad)).map (adamwParamStep hp))[i]?
        = some (clearGrad q) := by
  intro ps
  induction ps with
  | nil => intro k i q hq _; simp at hq
  | cons p0 qs ih =>
    intro k i q hq hf
    cases i with
    | zero =>
      have hp0 : p0 = q := by simpa using hq
      subst hp0
      have hcq : ¬ ((clearGrad p0).requiresGrad = true) := by
        simp [clearGrad, hf]
      simp [List.map_cons, setGrads, if_neg hcq,
        adamwParamStep_gradNone hp (clearGrad p0) rfl]
    | succ i =>
      have hq' : qs[i]? = some q := by simpa using hq
      simp only [List.map_cons, setGrads, List.getElem?_cons_succ]
      exact ih (k + 1) i q hq' hf

lemma runBatch_frozen (modelFn : List Param → Batch → List (Vec 2))
    (criterion : List (Vec 2) → List (Fin 2) → ℝ)
    (gradOf : Batch → ℕ → ℝ) (hp : HP) (st : TrainState) (b : Batch)
    (i : ℕ) (q : Param) (hq : st.params[i]? = some q)
    (hf : q.requiresGrad = false) :
    (runBatch modelFn criterion gradOf hp st b).params[i]?
      = some (clearGrad q) :=
  paramsPipeline_frozen (gradOf b) hp st.params 0 i q hq hf

/-- Frozen parameters are value-invariant (and stay frozen) across the whole
batch loop of an epoch. -/
lemma epochFold_frozen (modelFn : List Param → Batch → List (Vec 2))
    (criterion : List (Vec 2) → List (Fin 2) → ℝ)
    (gradOf : Batch → ℕ → ℝ) (hp : HP) :
    ∀ (bs : List Batch) (st : TrainState) (i : ℕ) (q : Param),
      st.params[i]? = some q → q.requiresGrad = false →
      ∃ q2 : Param,
        (bs.foldl (runBatch modelFn criterion gradOf hp) st).params[i]? = some q2
        ∧ q2.value = q.value ∧ q2.requiresGrad = false := by
  intro bs
  induction bs with
  | nil => intro st i q hq hf; exact ⟨q, hq, rfl, hf⟩
  | cons b bs ih =>
    intro st i q hq hf
    have hb := runBatch_frozen modelFn criterion gradOf hp st b i q hq hf
    obtain ⟨q2, hq2, hval, hfr⟩ :=
      ih (runBatch modelFn criterion gradOf hp st b) i (clearGrad q) hb hf
    exact ⟨q2, hq2, hval, hfr⟩

/-! ### Module training/eval modes (for the `torch.no_grad()` / `model.train()`
interaction around the encoder)

PyTorch semantics being embedded here:
* `nn.Module.train()` sets `self.training = True` recursively on every
  submodule, including `self.bert` (line 74: `model.train()`);
* `torch.no_grad()` (lines 51-52) suspends gradient recording for the
  wrapped computation, independently of any `requires_grad` flag and of
  `freeze_bert`; it does not alter any module's `training` flag;
* `nn.Dropout.forward` (and the dropout layers inside `BertModel`) drop
  activations iff the owning module's `training` flag is set; gradient mode
  plays no role in that decision. -/

/-- The `training` flags of the model's stochastic submodules: BERT's internal
dropout layers, the LSTM's inter-layer dropout and the classifier-head
dropout. -/
structure ModuleModes where
  bertTraining : Bool
  lstmDropTraining : Bool
  headDropTraining : Bool

/-- `model.train()`: every submodule's `training` flag becomes `True`,
whatever it was. -/
def moduleTrain (_m : ModuleModes) : ModuleModes := ⟨true, true, true⟩

/-- The module modes in force during the forward passes of `train_epoch`:
line 74 runs `model.train()` before the batch loop. -/
def trainEpochModes (m : ModuleModes) : ModuleModes := moduleTrain m

/-- Whether the `self.bert(...)` call of `forward` records gradients: it is
wrapped in `torch.no_grad()` (lines 51-52), so it never does — regardless of
the `freeze_bert` construction flag and of the ambient gradient mode. -/
def bertCallGradEnabled (_freeze_bert _ambientGradMode : Bool) : Bool := false

/-- Whether BERT's internal dropout layers actually drop activations: they
key off the encoder's `training` flag only. -/
def bertDropoutActive (m : ModuleModes) : Bool := m.bertTraining

/-! ### Construction-time validation (`SarcasmDetector.__init__`, lines 7-47)

Failure behavior being embedded (Python / PyTorch semantics):
* an unrecognized keyword argument in `SarcasmDetector(**options)` raises
  `TypeError` at the call itself, before the body runs;
* `nn.LSTM(..., dropout=dropout_rate)` (line 31) raises `ValueError` unless
  `0 <= dropout <= 1`;
* `nn.Dropout(dropout_rate)` (line 45) raises `ValueError` if
  `dropout_rate < 0` or `dropout_rate > 1`.
Neither library layer rejects `dropout_rate = 1.0`. -/

/-- `SarcasmDetector(dropout_rate=.., freeze_bert=.., **unrecognized)` at
construction time, reduced to its validation outcome: the accepted
configuration, or the exception raised. -/
def sarcasmDetectorConstruct (dropout_rate : ℚ) (freeze_bert : Bool)
    (unrecognized : List String) : Except PyErr (ℚ × Bool) :=
  if unrecognized ≠ [] then .error .typeError
  else if ¬ (0 ≤ dropout_rate ∧ dropout_rate ≤ 1) then .error .valueError
  else if dropout_rate < 0 ∨ 1 < dropout_rate then .error .valueError
  else .ok (dropout_rate, freeze_bert)

/-! ### Concrete weight instances used by the witnesses -/

def zeroGateW {d h : ℕ} : GateW d h :=
  ⟨fun _ _ => 0, fun _ _ => 0, fun _ => 0, fun _ => 0⟩

def zeroLSTMw {d h : ℕ} : LSTMw d h := ⟨zeroGateW, zeroGateW, zeroGateW, zeroGateW⟩

def zeroWeights : Weights :=
  ⟨fun _ _ _ => 0, fun _ => 0, zeroLSTMw, zeroLSTMw, zeroLSTMw, zeroLSTMw,
    fun _ _ => 0, fun _ => 0, fun _ _ => 0, fun _ => 0⟩

lemma lstmLayer2Input_length (w : Weights) (training : Bool) (p : ℝ)
    (mdrop : ℕ → Fin (128 + 128) → Bool) (es : List (Vec 768)) :
    (lstmLayer2Input w training p mdrop es).length = es.length := by
  rw [lstmLayer2Input, dropoutSeq_length, biLSTMLayer_length, convRelu_length]

/-! ## The claims -/

/-- C6: for every input sequence of length `L ≥ 1`, the convolution stage
(kernel width 3, padding 1) followed by the ReLU activation produces a feature
sequence of length exactly `L`. -/
theorem C6_conv_preserves_length (W : Fin 256 → Fin 768 → Fin 3 → ℝ)
    (b : Vec 256) (xs : List (Vec 768)) (_hL : 1 ≤ xs.length) :
    (convRelu W b xs).length = xs.length :=
  convRelu_length W b xs

theorem C6_conv_preserves_length_witness :
    (convRelu (fun _ _ _ => 0) (fun _ => 0)
        ([fun _ => 0] : List (Vec 768))).length
      = ([fun _ => 0] : List (Vec 768)).length :=
  C6_conv_preserves_length (fun _ _ _ => 0) (fun _ => 0)
    ([fun _ => 0] : List (Vec 768)) (by simp)

/-- C1: for every valid input batch (the opaque encoder returns one embedding
sequence per input example), the forward pass of `SarcasmDetector` returns
one row per example, each row being over exactly 2 classes and forming a
probability distribution: entries in `[0, 1]`, summing to exactly 1 (hence
within the `1e-6` tolerance).  This holds for every weight setting, dropout
probability, training mode and dropout-mask draw. -/
theorem C1_forward_rows_are_distributions (w : Weights) (training : Bool)
    (p : ℝ) (mdrop : ℕ → ℕ → Fin (128 + 128) → Bool)
    (ddrop : ℕ → Fin 64 → Bool)
    (bert : List (List ℤ) → List (List ℤ) → List (List (Vec 768)))
    (input_ids attention_mask : List (List ℤ))
    (hbert : (bert input_ids attention_mask).length = input_ids.length) :
    (sarcasmDetectorForward w training p mdrop ddrop bert input_ids
        attention_mask).length = input_ids.length ∧
    ∀ row ∈ sarcasmDetectorForward w training p mdrop ddrop bert input_ids
        attention_mask,
      (∑ j, row j) = 1 ∧ |(∑ j, row j) - 1| ≤ 1 / 1000000 ∧
        ∀ j, 0 ≤ row j ∧ row j ≤ 1 := by
  constructor
  · rw [sarcasmDetectorForward, forwardBatch_length]
    exact hbert
  · intro row hrow
    obtain ⟨jx, es, hre⟩ :=
      forwardBatch_mem w training p mdrop ddrop 0 _ row hrow
    have hsum : (∑ j, row j) = 1 := by
      rw [hre]; exact softmax_row_sum _
    refine ⟨hsum, by rw [hsum]; norm_num, fun j => ?_⟩
    constructor
    · rw [hre]; exact softmax_nonneg _ j
    · rw [hre]; exact softmax_le_one _ j

theorem C1_forward_rows_are_distributions_witness :
    (sarcasmDetectorForward zeroWeights false 0 (fun _ _ _ => true)
        (fun _ _ => true) (fun _ _ => [[fun _ => 0]]) [[0]] [[1]]).length
      = ([[0]] : List (List ℤ)).length ∧
    ∀ row ∈ sarcasmDetectorForward zeroWeights false 0 (fun _ _ _ => true)
        (fun _ _ => true) (fun _ _ => [[fun _ => 0]]) [[0]] [[1]],
      (∑ j, row j) = 1 ∧ |(∑ j, row j) - 1| ≤ 1 / 1000000 ∧
        ∀ j, 0 ≤ row j ∧ row j ≤ 1 :=
  C1_forward_rows_are_distributions zeroWeights false 0 (fun _ _ _ => true)
    (fun _ _ => true) (fun _ _ => [[fun _ => 0]]) [[0]] [[1]] rfl

/-- C5: for every non-empty embedding sequence, the aggregated state handed
to the classifier head (`lstm_out[:, -1, :]`) is the concatenation — via
`Fin.append`, never a sum — of the two halves produced by the second layer's
two independent directional passes over the same feature sequence: the
forward half is the forward direction's final hidden state (the fold of the
forward cell over the whole sequence), and the backward half is the backward
direction's hidden state at that last time-step (the backward pass starts at
the sequence's end, so at the last position it has consumed exactly the last
element; the spec fixes this reading by "Take only the last time-step's
output ... 128 forward + 128 backward"). -/
theorem C5_aggregated_state_is_concat (w : Weights) (training : Bool) (p : ℝ)
    (mdrop : ℕ → Fin (128 + 128) → Bool) (es : List (Vec 768))
    (hne : es ≠ []) :
    aggregatedState w training p mdrop es
      = Fin.append
          (lstmFinalState w.l2f lstmZeroState
            (lstmLayer2Input w training p mdrop es)).1
          (lstmCell w.l2b lstmZeroState
            ((lstmLayer2Input w training p mdrop es).getLastD (fun _ => 0))).1 := by
  have h2 : lstmLayer2Input w training p mdrop es ≠ [] := by
    intro h
    apply hne
    have hl := lstmLayer2Input_length w training p mdrop es
    rw [h] at hl
    exact List.length_eq_zero.mp hl.symm
  rw [aggregatedState, lstmOut]
  exact biLSTMLayer_getLastD w.l2f w.l2b _ _ h2

theorem C5_aggregated_state_is_concat_witness :
    aggregatedState zeroWeights false 0 (fun _ _ => true)
        ([fun _ => 0] : List (Vec 768))
      = Fin.append
          (lstmFinalState zeroWeights.l2f lstmZeroState
            (lstmLayer2Input zeroWeights false 0 (fun _ _ => true)
              ([fun _ => 0] : List (Vec 768)))).1
          (lstmCell zeroWeights.l2b lstmZeroState
            ((lstmLayer2Input zeroWeights false 0 (fun _ _ => true)
              ([fun _ => 0] : List (Vec 768))).getLastD (fun _ => 0))).1 :=
  C5_aggregated_state_is_concat zeroWeights false 0 (fun _ _ => true)
    ([fun _ => 0] : List (Vec 768)) (List.cons_ne_nil _ _)

/-- C4: for every non-empty batch list, `train_epoch` (with the
`nn.CrossEntropyLoss` criterion built in `__main__`) returns exactly the
arithmetic mean of the per-batch scalar losses — the sum of the `N` per-batch
losses divided by `N` — and that value is non-negative (and, being a real
number of the exact-arithmetic embedding, finite). -/
theorem C4_epoch_returns_mean_loss (modelFn : List Param → Batch → List (Vec 2))
    (gradOf : Batch → ℕ → ℝ) (hp : HP) (ps : List Param)
    (batches : List Batch) (hne : batches ≠ []) :
    trainEpoch modelFn crossEntropyLoss gradOf hp ps batches
      = .ok ((epochLosses modelFn crossEntropyLoss gradOf hp ⟨ps, 0⟩ batches).sum
          / batches.length) ∧
    (epochLosses modelFn crossEntropyLoss gradOf hp ⟨ps, 0⟩ batches).length
      = batches.length ∧
    0 ≤ (epochLosses modelFn crossEntropyLoss gradOf hp ⟨ps, 0⟩ batches).sum
          / batches.length := by
  have hlen : batches.length ≠ 0 := by
    simpa using (List.length_pos.mpr hne).ne'
  have ht : (epochState modelFn crossEntropyLoss gradOf hp ps batches).totalLoss
      = (epochLosses modelFn crossEntropyLoss gradOf hp ⟨ps, 0⟩ batches).sum := by
    rw [epochState, epochState_totalLoss]
    simp
  refine ⟨?_, epochLosses_length modelFn crossEntropyLoss gradOf hp batches _, ?_⟩
  · rw [trainEpoch, ht, pyDiv, if_neg hlen]
  · refine div_nonneg ?_ (Nat.cast_nonneg _)
    exact List.sum_nonneg
      (fun x hx => epochLosses_nonneg modelFn gradOf hp batches ⟨ps, 0⟩ x hx)

theorem C4_epoch_returns_mean_loss_witness :
    trainEpoch (fun _ _ => []) crossEntropyLoss (fun _ _ => 0) (defaultHP 1) []
        [Batch.mk [] [] []]
      = .ok ((epochLosses (fun _ _ => []) crossEntropyLoss (fun _ _ => 0)
          (defaultHP 1) ⟨[], 0⟩ [Batch.mk [] [] []]).sum
            / ([Batch.mk [] [] []] : List Batch).length) ∧
    (epochLosses (fun _ _ => []) crossEntropyLoss (fun _ _ => 0) (defaultHP 1)
        ⟨[], 0⟩ [Batch.mk [] [] []]).length
      = ([Batch.mk [] [] []] : List Batch).length ∧
    0 ≤ (epochLosses (fun _ _ => []) crossEntropyLoss (fun _ _ => 0)
        (defaultHP 1) ⟨[], 0⟩ [Batch.mk [] [] []]).sum
          / ([Batch.mk [] [] []] : List Batch).length :=
  C4_epoch_returns_mean_loss (fun _ _ => []) (fun _ _ => 0) (defaultHP 1) []
    [Batch.mk [] [] []] (List.cons_ne_nil _ _)

/-- C7: in every training step, the scalar loss accumulated by the loop is
the cross-entropy criterion applied to the softmax-normalized class
probabilities produced by the forward pass — the criterion consumes
`softmax`-mapped raw scores (the output of the normalized-exponential
transform), not the raw pre-normalization scores themselves — together with
the batch's true labels. -/
theorem C7_criterion_consumes_probabilities (w : Weights) (training : Bool)
    (p : ℝ) (mdrop : ℕ → ℕ → Fin (128 + 128) → Bool)
    (ddrop : ℕ → Fin 64 → Bool)
    (bert : List (List ℤ) → List (List ℤ) → List (List (Vec 768)))
    (gradOf : Batch → ℕ → ℝ) (hp : HP) (st : TrainState) (b : Batch) :
    (runBatch
        (fun _ bb => sarcasmDetectorForward w training p mdrop ddrop bert
          bb.input_ids bb.attention_mask)
        crossEntropyLoss gradOf hp st b).totalLoss
      = st.totalLoss
        + crossEntropyLoss
            ((logitsBatch w training p mdrop ddrop 0
              (bert b.input_ids b.attention_mask)).map softmax)
            b.labels := by
  calc (runBatch
        (fun _ bb => sarcasmDetectorForward w training p mdrop ddrop bert
          bb.input_ids bb.attention_mask)
        crossEntropyLoss gradOf hp st b).totalLoss
      = st.totalLoss
        + crossEntropyLoss
            (forwardBatch w training p mdrop ddrop 0
              (bert b.input_ids b.attention_mask))
            b.labels := rfl
    _ = st.totalLoss
        + crossEntropyLoss
            ((logitsBatch w training p mdrop ddrop 0
              (bert b.input_ids b.attention_mask)).map softmax)
            b.labels := by
          rw [logitsBatch_map_softmax]

/-- C8: the per-batch program of `train_epoch` performs, in this fixed order:
clear accumulated gradients, forward pass, loss computation, backward pass,
optimizer step — with exactly one optimizer step per batch, and the optimizer
step never preceding the backward pass. -/
theorem C8_batch_op_order :
    batchProgram.count .optimizerStep = 1 ∧
    (∀ i j : Fin batchProgram.length,
      batchProgram.get i = .zeroGrad → batchProgram.get j = .forwardPass →
        i < j) ∧
    (∀ i j : Fin batchProgram.length,
      batchProgram.get i = .forwardPass → batchProgram.get j = .computeLoss →
        i < j) ∧
    (∀ i j : Fin batchProgram.length,
      batchProgram.get i = .computeLoss → batchProgram.get j = .backwardPass →
        i < j) ∧
    (∀ i j : Fin batchProgram.length,
      batchProgram.get i = .backwardPass → batchProgram.get j = .optimizerStep →
        i < j) := by
  decide

/-- C10: `train_epoch` on an empty batch iterator does not return a number:
the final `total_loss / len(train_loader)` divides by zero and raises
`ZeroDivisionError`, so the epoch contract only holds when the loader yields
at least one batch. -/
theorem C10_empty_loader_raises (modelFn : List Param → Batch → List (Vec 2))
    (criterion : List (Vec 2) → List (Fin 2) → ℝ)
    (gradOf : Batch → ℕ → ℝ) (hp : HP) (ps : List Param) :
    trainEpoch modelFn criterion gradOf hp ps [] = .error .zeroDivisionError :=
  rfl

/-- C2, counterexample: the claim asserts that during `train_epoch`'s forward
passes the encoder's internal dropout is disabled.  It is not: line 74 runs
`model.train()`, which sets `self.bert.training = True`, and `torch.no_grad()`
does not turn dropout off — so after `model.train()` the encoder's dropout
layers are active (whatever the modes were before). -/
theorem C2_counterexample :
    bertDropoutActive (trainEpochModes ⟨false, false, false⟩) = true := rfl

/-- C2, amended: during forward passes invoked from `train_epoch`, the
encoder call is gradient-free regardless of the `freeze_bert` flag and of the
ambient gradient mode (it is wrapped in `torch.no_grad()`), but the encoder's
internal dropout/stochastic behavior is NOT disabled: `model.train()` puts
the encoder in training mode, which is exactly what its dropout layers key
off. -/
theorem C2_amended (freeze_bert ambient : Bool) (m : ModuleModes) :
    bertCallGradEnabled freeze_bert ambient = false ∧
    bertDropoutActive (trainEpochModes m) = true :=
  ⟨rfl, rfl⟩

/-- C9, counterexample: the claim asserts that every `dropout_rate` outside
`[0, 1)` makes construction fail.  `dropout_rate = 1.0` is outside `[0, 1)`,
yet `SarcasmDetector(dropout_rate=1.0)` constructs successfully: both
`nn.LSTM` and `nn.Dropout` accept any dropout probability in `[0, 1]`. -/
theorem C9_counterexample :
    sarcasmDetectorConstruct 1 true [] = .ok (1, true) ∧
    ¬ ((0 : ℚ) ≤ 1 ∧ (1 : ℚ) < 1) :=
  ⟨rfl, by decide⟩

/-- C9, amended: configuration errors fail at construction time, before any
training begins, but the range of `dropout_rate` values rejected is
`(-∞,0) ∪ (1,∞)`, not the complement of the spec's `[0,1)`: an unrecognized
construction option raises `TypeError` at the call itself; `dropout_rate`
outside `[0, 1]` raises `ValueError` from the layer constructors inside
`__init__`; and every `dropout_rate` in `[0, 1]` (including `1.0`, which the
spec's interface deems invalid) is accepted, so no configuration error is
deferred to the forward pass or the training loop. -/
theorem C9_amended (d : ℚ) (fb : Bool) (extra : List String) :
    (extra ≠ [] → sarcasmDetectorConstruct d fb extra = .error .typeError) ∧
    ((d < 0 ∨ 1 < d) → extra = [] →
      sarcasmDetectorConstruct d fb extra = .error .valueError) ∧
    (0 ≤ d → d ≤ 1 → extra = [] →
      sarcasmDetectorConstruct d fb extra = .ok (d, fb)) := by
  refine ⟨?_, ?_, ?_⟩
  · intro h
    rw [sarcasmDetectorConstruct, if_pos h]
  · intro hd hext
    subst hext
    have hcond : ¬ (0 ≤ d ∧ d ≤ 1) := by
      rcases hd with h1 | h2
      · exact fun hc => absurd hc.1 (not_le.mpr h1)
      · exact fun hc => absurd hc.2 (not_le.mpr h2)
    simp [sarcasmDetectorConstruct, hcond]
  · intro h0 h1 hext
    subst hext
    have hc2 : ¬ (d < 0 ∨ 1 < d) := by
      push_neg
      exact ⟨h0, h1⟩
    simp [sarcasmDetectorConstruct, h0, h1, hc2]

theorem C9_amended_witness :
    sarcasmDetectorConstruct (3 / 10) true [] = .ok (3 / 10, true) :=
  (C9_amended (3 / 10) true []).2.2 (by norm_num) (by norm_num) rfl

/-- Closed form of the very first AdamW update (fresh optimizer state:
`exp_avg = exp_avg_sq = 0`, `step = 0`) of a trainable parameter with
gradient `G`, under the driver's default hyperparameters
(`betas=(0.9, 0.999)`, `eps=1e-8`, `weight_decay=0.01`): the bias corrections
cancel exactly and the update is
`val ← val - lr*(val/100 + G/(|G| + 1e-8))`. -/
lemma adamw_firstStep_value (lr val G : ℝ) :
    (adamwParamStep (defaultHP lr) ⟨val, true, some G, 0, 0, 0⟩).value
      = val - lr * (val / 100 + G / (|G| + 1 / 100000000)) := by
  show val * (1 - lr * (1 / 100))
        - lr * (((9 / 10 : ℝ) * 0 + (1 - 9 / 10) * G) / (1 - (9 / 10 : ℝ) ^ (0 + 1)))
          / (Real.sqrt ((999 / 1000 : ℝ) * 0 + (1 - 999 / 1000) * G ^ 2)
              / Real.sqrt (1 - (999 / 1000 : ℝ) ^ (0 + 1)) + 1 / 100000000)
      = val - lr * (val / 100 + G / (|G| + 1 / 100000000))
  have hsq : Real.sqrt ((999 / 1000 : ℝ) * 0 + (1 - 999 / 1000) * G ^ 2)
      = Real.sqrt (1 / 1000) * |G| := by
    rw [show ((999 / 1000 : ℝ) * 0 + (1 - 999 / 1000) * G ^ 2)
        = (1 / 1000) * G ^ 2 by ring]
    rw [Real.sqrt_mul (by norm_num : (0 : ℝ) ≤ 1 / 1000), Real.sqrt_sq_eq_abs]
  have hbc2 : (1 - (999 / 1000 : ℝ) ^ (0 + 1)) = 1 / 1000 := by norm_num
  have hm : ((9 / 10 : ℝ) * 0 + (1 - 9 / 10) * G) / (1 - (9 / 10 : ℝ) ^ (0 + 1))
      = G := by
    rw [show ((9 / 10 : ℝ) * 0 + (1 - 9 / 10) * G) = (1 / 10) * G by ring,
      show (1 - (9 / 10 : ℝ) ^ (0 + 1)) = 1 / 10 by norm_num]
    exact mul_div_cancel_left₀ G (by norm_num)
  rw [hsq, hbc2, hm,
    mul_div_cancel_left₀ |G| (Real.sqrt_ne_zero'.mpr (by norm_num : (0 : ℝ) < 1 / 1000))]
  ring

/-- C3, counterexample: the claim asserts that with `freeze_bert = True`,
after one full `train_epoch` every non-encoder (trainable) parameter differs
from its pre-epoch value whenever gradients and the learning rate are
nonzero.  AdamW's decoupled weight decay has an exact fixed point that
falsifies this: with the driver's learning rate `2e-5` (nonzero) and a
nonzero gradient `1`, a trainable parameter at value `-(10^10)/(10^8 + 1)`
is bit-identical after a full one-batch epoch, because the weight-decay pull
`lr*0.01*p` exactly cancels the normalized gradient step
`lr*1/(1 + 1e-8)`. -/
theorem C3_counterexample :
    ((2 / 100000 : ℝ) ≠ 0) ∧ ((1 : ℝ) ≠ 0) ∧
    (Param.mk (-(10 ^ 10 : ℝ) / (10 ^ 8 + 1)) true none 0 0 0).requiresGrad
      = true ∧
    ∃ q2 : Param,
      (epochState (fun _ _ => []) (fun _ _ => 0) (fun _ _ => (1 : ℝ))
          (defaultHP (2 / 100000))
          [Param.mk (-(10 ^ 10 : ℝ) / (10 ^ 8 + 1)) true none 0 0 0]
          [Batch.mk [] [] []]).params[0]? = some q2 ∧
      q2.value = -(10 ^ 10 : ℝ) / (10 ^ 8 + 1) := by
  refine ⟨by norm_num, by norm_num, rfl, ?_⟩
  refine ⟨adamwParamStep (defaultHP (2 / 100000))
    ⟨-(10 ^ 10 : ℝ) / (10 ^ 8 + 1), true, some 1, 0, 0, 0⟩, rfl, ?_⟩
  rw [adamw_firstStep_value]
  rw [abs_one]
  norm_num

/-- C3, amended: with `freeze_bert = True` (the encoder parameters carry
`requires_grad = False`), one full `train_epoch` leaves every encoder
parameter's value bit-identical, for any batches, criterion, model and
optimizer hyperparameters.  A non-encoder (trainable) parameter differs after
an epoch under the counterexample-forced strengthening of the claim's
assumptions: for a one-batch epoch from fresh optimizer state, nonzero
gradient and nonzero learning rate, provided the parameter is not at AdamW's
weight-decay fixed point, i.e. `p/100 + g/(|g| + 1e-8) ≠ 0` (with the
driver's default `weight_decay = 0.01` and `eps = 1e-8`). -/
theorem C3_frozen_invariant_trainable_updates :
    (∀ (modelFn : List Param → Batch → List (Vec 2))
       (criterion : List (Vec 2) → List (Fin 2) → ℝ)
       (gradOf : Batch → ℕ → ℝ) (hp : HP) (ps : List Param)
       (bs : List Batch) (i : ℕ) (q : Param),
       ps[i]? = some q → q.requiresGrad = false →
       ∃ q2 : Param,
         (epochState modelFn criterion gradOf hp ps bs).params[i]? = some q2
         ∧ q2.value = q.value ∧ q2.requiresGrad = false) ∧
    (∀ (modelFn : List Param → Batch → List (Vec 2))
       (criterion : List (Vec 2) → List (Fin 2) → ℝ)
       (gradOf : Batch → ℕ → ℝ) (lr : ℝ) (q : Param) (b : Batch),
       q.requiresGrad = true → q.expAvg = 0 → q.expAvgSq = 0 →
       q.stepCount = 0 → lr ≠ 0 → gradOf b 0 ≠ 0 →
       q.value / 100 + gradOf b 0 / (|gradOf b 0| + 1 / 100000000) ≠ 0 →
       ∃ q2 : Param,
         (epochState modelFn criterion gradOf (defaultHP lr) [q] [b]).params[0]?
           = some q2 ∧ q2.value ≠ q.value) := by
  constructor
  · intro modelFn criterion gradOf hp ps bs i q hq hf
    exact epochFold_frozen modelFn criterion gradOf hp bs ⟨ps, 0⟩ i q hq hf
  · intro modelFn criterion gradOf lr q b hrg hAvg hSq hStep hlr hG hX
    have hsetg : setGrads (gradOf b) 0 ([q].map clearGrad)
        = [⟨q.value, true, some (gradOf b 0), q.expAvg, q.expAvgSq,
            q.stepCount⟩] := by
      simp [setGrads, clearGrad, hrg]
    have hparams :
        (epochState modelFn criterion gradOf (defaultHP lr) [q] [b]).params
          = [adamwParamStep (defaultHP lr)
              ⟨q.value, true, some (gradOf b 0), 0, 0, 0⟩] := by
      have e1 : (epochState modelFn criterion gradOf (defaultHP lr) [q] [b]).params
          = (setGrads (gradOf b) 0
              ([q].map clearGrad)).map (adamwParamStep (defaultHP lr)) := rfl
      rw [e1, hsetg, hAvg, hSq, hStep]
      rfl
    refine ⟨adamwParamStep (defaultHP lr)
      ⟨q.value, true, some (gradOf b 0), 0, 0, 0⟩, by rw [hparams]; rfl, ?_⟩
    rw [adamw_firstStep_value]
    intro heq
    have hzero : lr * (q.value / 100
        + gradOf b 0 / (|gradOf b 0| + 1 / 100000000)) = 0 :=
      sub_eq_self.mp heq
    rcases mul_eq_zero.mp hzero with h | h
    · exact hlr h
    · exact hX h

theorem C3_frozen_invariant_trainable_updates_witness :
    ∃ q2 : Param,
      (epochState (fun _ _ => []) (fun _ _ => 0) (fun _ _ => (1 : ℝ))
          (defaultHP 1) [Param.mk 0 true none 0 0 0]
          [Batch.mk [] [] []]).params[0]? = some q2 ∧
      q2.value ≠ 0 :=
  C3_frozen_invariant_trainable_updates.2 (fun _ _ => []) (fun _ _ => 0)
    (fun _ _ => (1 : ℝ)) 1 (Param.mk 0 true none 0 0 0) (Batch.mk [] [] [])
    rfl rfl rfl rfl (by norm_num) (by norm_num) (by norm_num [abs_one])

end







